import Mathlib

/-!
Verification of the DrCOM PPPoE heartbeat packet layer
(`src/heartbeater/drcom/pppoe.rs` of libnetkeeper).

Bytes are modelled as `Nat` (values below 256 where relevant).  The source
encodes multi-byte integers with `NativeEndian`; the repository's own unit
tests fix the little-endian concretization (e.g. the `NONE` hash is asserted
to be `[199, 47, 49, 1, 126, 0, 0, 0]`), so native order is modelled as
little-endian throughout.  External collaborators that live outside this
source file (the per-message opcode `code()`, the stream primitives of
`common::reader`, and the MD5/MD4/SHA1 digest primitives) are parameterized
or modelled from the specification, as noted on each definition.
-/

/-- Little-endian 4-byte encoding of a 32-bit value
(`NativeEndian::write_u32`). -/
def write_u32_le (v : Nat) : List Nat :=
  [v % 256, v / 256 % 256, v / 65536 % 256, v / 16777216 % 256]

/-- Little-endian 2-byte encoding of a 16-bit value
(`NativeEndian::write_u16`). -/
def write_u16_le (v : Nat) : List Nat :=
  [v % 256, v / 256 % 256]

/-- Little-endian read of the first 4 bytes (`NativeEndian::read_u32`). -/
def read_u32_le (b : List Nat) : Nat :=
  b.getD 0 0 + 256 * b.getD 1 0 + 65536 * b.getD 2 0 + 16777216 * b.getD 3 0

/-- Big-endian read of the first 4 bytes (`NetworkEndian::read_u32`). -/
def read_u32_be (b : List Nat) : Nat :=
  16777216 * b.getD 0 0 + 65536 * b.getD 1 0 + 256 * b.getD 2 0 + b.getD 3 0

/-- Little-endian read of the first 2 bytes (`NativeEndian::read_u16`). -/
def read_u16_le (b : List Nat) : Nat :=
  b.getD 0 0 + 256 * b.getD 1 0

/-- `std::net::Ipv4Addr`, as its four octets. -/
structure Ipv4Addr where
  o0 : Nat
  o1 : Nat
  o2 : Nat
  o3 : Nat
deriving DecidableEq, Repr

/-- `Ipv4Addr::octets`: the natural octet order. -/
def Ipv4Addr.octets (ip : Ipv4Addr) : List Nat :=
  [ip.o0, ip.o1, ip.o2, ip.o3]

/-- `Ipv4Addr::from(u32)`: the octets are the big-endian bytes of the value. -/
def Ipv4Addr.fromU32 (v : Nat) : Ipv4Addr :=
  ⟨v / 16777216 % 256, v / 65536 % 256, v / 256 % 256, v % 256⟩

/-- `enum HeartbeatFlag { First, NotFirst }`. -/
inductive HeartbeatFlag where
  | First
  | NotFirst
deriving DecidableEq, Repr

/-- `HeartbeatFlag::as_u32`. -/
def HeartbeatFlag.as_u32 : HeartbeatFlag → Nat
  | .First => 0x2a006200
  | .NotFirst => 0x2a006300

/-- `enum CRCHasherType { NONE, MD5, MD4, SHA1 }`. -/
inductive CRCHasherType where
  | NONE
  | MD5
  | MD4
  | SHA1
deriving DecidableEq, Repr

/-- `enum CRCHashError { ModeNotExist, InputLengthInvalid }`. -/
inductive CRCHashError where
  | ModeNotExist
  | InputLengthInvalid
deriving DecidableEq, Repr

/-- `NoneHasher::finish`: 8 bytes, the native-order encoding of
`DRCOM_DIAL_EXT_PROTO_CRC_INIT = 20000711` followed by that of `126`.
The input is never examined (`update` is a no-op). -/
def NoneHasher.finish : List Nat :=
  write_u32_le 20000711 ++ write_u32_le 126

/-- The digest primitives for the MD5/MD4/SHA1 hashers built by
`HasherBuilder::build` live in the external `crypto::hash` module (out of
scope for this core, a black-box `digest(bytes) -> byte sequence`
capability); an encode call does `update(bytes)` once then `finish`, which
collapses to one function of the whole input. -/
structure DigestOracle where
  md5 : List Nat → List Nat
  md4 : List Nat → List Nat
  sha1 : List Nat → List Nat

/-- `CRCHasherType::hasher(...).update(bytes); .finish()`: the digest each
variant produces, with the `NONE` variant dispatching to `NoneHasher`. -/
def hasherFinish (o : DigestOracle) : CRCHasherType → List Nat → List Nat
  | .NONE, _ => NoneHasher.finish
  | .MD5, b => o.md5 b
  | .MD4, b => o.md4 b
  | .SHA1, b => o.sha1 b

/-- `CRCHasherType::retain_postions` (sic): the per-variant digest offsets. -/
def CRCHasherType.retain_postions : CRCHasherType → List Nat
  | .NONE => [0, 1, 2, 3, 4, 5, 6, 7]
  | .MD5 => [2, 3, 8, 9, 5, 6, 13, 14]
  | .MD4 => [1, 2, 8, 9, 4, 5, 11, 12]
  | .SHA1 => [2, 3, 9, 10, 5, 6, 15, 16]

/-- The retain loop of `CRCHasher::hash`: for each offset `i`, skip it when
`i > hashed_bytes.len()` (`continue`), otherwise push `hashed_bytes[i]`;
the indexing panics when `i` equals the length (out of bounds but not
skipped), modelled as `none`. -/
def retainBytes (hashedBytes : List Nat) : List Nat → Option (List Nat)
  | [] => some []
  | i :: rest =>
    if i > hashedBytes.length then
      retainBytes hashedBytes rest
    else
      match hashedBytes.get? i with
      | none => none
      | some b => (retainBytes hashedBytes rest).map (b :: ·)

/-- `CRCHasher::hash`: digest the input, retain the configured offsets, then
`result.clone_from_slice(hashed)` into a `[u8; 8]`, which panics (`none`)
unless exactly 8 bytes were collected. -/
def CRCHasher.hash (o : DigestOracle) (mode : CRCHasherType) (bytes : List Nat) :
    Option (List Nat) :=
  let hashedBytes := hasherFinish o mode bytes
  match retainBytes hashedBytes mode.retain_postions with
  | none => none
  | some hashed => if hashed.length = 8 then some hashed else none

/-- `CRCHasherType::from_mode`. -/
def CRCHasherType.from_mode (mode : Nat) : Except CRCHashError CRCHasherType :=
  match mode with
  | 0 => .ok .NONE
  | 1 => .ok .MD5
  | 2 => .ok .MD4
  | 3 => .ok .SHA1
  | _ => .error .ModeNotExist

/-- `calculate_drcom_crc32`: requires the length to be a multiple of 4, then
XORs the native-order 4-byte words `bytes[4c..4c+4]` for `c` in
`0..len/4` into the accumulator (`initial`, default 0). -/
def calculate_drcom_crc32 (bytes : List Nat) (initial : Option Nat) :
    Except CRCHashError Nat :=
  if bytes.length % 4 ≠ 0 then
    .error .InputLengthInvalid
  else
    .ok ((List.range (bytes.length / 4)).foldl
      (fun result c => result ^^^ read_u32_le (bytes.drop (c * 4)))
      (initial.getD 0))

/-- Specification-side view of the fallback checksum: the buffer chopped
into native-order 4-byte words, in order. -/
def toWords : List Nat → List Nat
  | b0 :: b1 :: b2 :: b3 :: rest => read_u32_le [b0, b1, b2, b3] :: toWords rest
  | _ => []

/-- `struct ChallengeRequest`. -/
structure ChallengeRequest where
  sequence : Nat
deriving DecidableEq, Repr

/-- `ChallengeRequest::new`: sequence defaults to 1 when absent. -/
def ChallengeRequest.new (sequence : Option Nat) : ChallengeRequest :=
  { sequence := sequence.getD 1 }

/-- `ChallengeRequest::magic_number`. -/
def ChallengeRequest.magic_number : Nat := 65544

/-- `ChallengeRequest::as_bytes`: an `[u8; 8]` with byte 0 the message
opcode (`Self::code()`, supplied by the external `common::drcom` constants
module, here a parameter), byte 1 the sequence, bytes 2..6 the native-order
magic number, and the final two bytes left at their `[0u8; 8]` initial
value. -/
def ChallengeRequest.as_bytes (code : Nat) (r : ChallengeRequest) : List Nat :=
  [code, r.sequence] ++ write_u32_le ChallengeRequest.magic_number ++ [0, 0]

/-- `ReadBytesError` of `common::reader`. Modelled from the spec:
stream read errors are short read or opcode mismatch. -/
inductive ReadBytesError where
  | ShortRead
  | PacketMismatch
deriving DecidableEq, Repr

/-- Modelled from the spec: `validate_packet` of `DrCOMResponseCommon`
(external `common::drcom` collaborator) checks and consumes one leading
opcode byte, failing on mismatch or an empty stream. -/
def validate_packet (code : Nat) (input : List Nat) :
    Except ReadBytesError (List Nat) :=
  match input with
  | [] => .error .ShortRead
  | b :: rest => if b = code then .ok rest else .error .PacketMismatch

/-- Modelled from the spec: `read_bytes(n)` of `common::reader` returns
exactly `n` bytes from the stream or fails with a short read. -/
def read_bytes (n : Nat) (input : List Nat) :
    Except ReadBytesError (List Nat × List Nat) :=
  if input.length < n then .error .ShortRead
  else .ok (input.take n, input.drop n)

/-- `struct ChallengeResponse`. -/
structure ChallengeResponse where
  challenge_seed : Nat
  source_ip : Ipv4Addr
deriving DecidableEq, Repr

/-- `ChallengeResponse::from_bytes`: validate and consume the opcode byte,
drain 7 unknown bytes, read `challenge_seed` native-order, then read
`source_ip` network-order (big-endian). -/
def ChallengeResponse.from_bytes (code : Nat) (input : List Nat) :
    Except ReadBytesError ChallengeResponse :=
  match validate_packet code input with
  | .error e => .error e
  | .ok s1 =>
    match read_bytes 7 s1 with
    | .error e => .error e
    | .ok (_, s2) =>
      match read_bytes 4 s2 with
      | .error e => .error e
      | .ok (challenge_seed_bytes, s3) =>
        let challenge_seed := read_u32_le challenge_seed_bytes
        match read_bytes 4 s3 with
        | .error e => .error e
        | .ok (source_ip_bytes, _) =>
          let source_ip := Ipv4Addr.fromU32 (read_u32_be source_ip_bytes)
          .ok { challenge_seed := challenge_seed, source_ip := source_ip }

/-- `struct HeartbeatRequest`. -/
structure HeartbeatRequest where
  sequence : Nat
  type_id : Nat
  uid_length : Nat
  mac_address : List Nat
  source_ip : Ipv4Addr
  flag : HeartbeatFlag
  challenge_seed : Nat
deriving Repr

/-- `HeartbeatRequest::header_length`. -/
def HeartbeatRequest.header_length : Nat := 1 + 1 + 2

/-- `HeartbeatRequest::content_length`. -/
def HeartbeatRequest.content_length : Nat := 1 + 1 + 6 + 4 + 4 + 4

/-- `HeartbeatRequest::footer_length`. -/
def HeartbeatRequest.footer_length : Nat := 8 + 16 * 4

/-- `HeartbeatRequest::packet_length`. -/
def HeartbeatRequest.packet_length : Nat :=
  HeartbeatRequest.header_length + HeartbeatRequest.content_length +
    HeartbeatRequest.footer_length

/-- Well-formedness of a `HeartbeatRequest` value: every `u8` field is a
byte, the MAC is `[u8; 6]`, the address octets are bytes, and the seed is a
`u32`. -/
def HeartbeatRequest.wf (r : HeartbeatRequest) : Prop :=
  r.sequence < 256 ∧ r.type_id < 256 ∧ r.uid_length < 256 ∧
    r.mac_address.length = 6 ∧ (∀ b ∈ r.mac_address, b < 256) ∧
    r.source_ip.o0 < 256 ∧ r.source_ip.o1 < 256 ∧ r.source_ip.o2 < 256 ∧
    r.source_ip.o3 < 256 ∧ r.challenge_seed < 4294967296

instance (r : HeartbeatRequest) : Decidable r.wf := by
  unfold HeartbeatRequest.wf; infer_instance

/-- The `header_bytes` block of `HeartbeatRequest::as_bytes`: opcode,
sequence, then `packet_length() as u16` native-order. -/
def HeartbeatRequest.header_bytes (code : Nat) (r : HeartbeatRequest) : List Nat :=
  [code, r.sequence] ++ write_u16_le (HeartbeatRequest.packet_length % 65536)

/-- The `content_bytes` block of `HeartbeatRequest::as_bytes`: type_id,
uid_length, MAC, source octets, native-order flag, native-order seed. -/
def HeartbeatRequest.content_bytes (r : HeartbeatRequest) : List Nat :=
  [r.type_id, r.uid_length] ++ r.mac_address ++ r.source_ip.octets ++
    write_u32_le r.flag.as_u32 ++ write_u32_le r.challenge_seed

/-- In-place 4-byte store into a byte vector
(`NativeEndian::write_u32(&mut v[off..], x)`). -/
def overwrite (dst : List Nat) (off : Nat) (src : List Nat) : List Nat :=
  dst.take off ++ src ++ dst.drop (off + src.length)

/-- `HeartbeatRequest::as_bytes`.  The two `unwrap()`s (mode lookup and
fallback checksum) and the in-`hash` panic paths are modelled as `none`.
The footer starts with the 8 retained hash bytes; only in `NONE` mode the
assembled 32 bytes are checksummed, the result is wrap-multiplied by
19680126 and stored over footer bytes 0..4 with zeros over bytes 4..8;
finally 64 zero padding bytes are appended. -/
def HeartbeatRequest.as_bytes (o : DigestOracle) (code : Nat)
    (r : HeartbeatRequest) : Option (List Nat) :=
  let header_bytes := HeartbeatRequest.header_bytes code r
  let challenge_seed_bytes := write_u32_le r.challenge_seed
  let content_bytes := HeartbeatRequest.content_bytes r
  match CRCHasherType.from_mode (r.challenge_seed % 3) with
  | .error _ => none
  | .ok hash_mode =>
    match CRCHasher.hash o hash_mode challenge_seed_bytes with
    | none => none
    | some crc_hash_bytes =>
      let footer8 : Option (List Nat) :=
        match hash_mode with
        | .NONE =>
          let rehash_bytes := header_bytes ++ content_bytes ++ crc_hash_bytes
          match calculate_drcom_crc32 rehash_bytes none with
          | .error _ => none
          | .ok crc =>
            some (overwrite (overwrite crc_hash_bytes 0
              (write_u32_le (crc * 19680126 % 4294967296))) 4 (write_u32_le 0))
        | _ => some crc_hash_bytes
      footer8.map (fun f =>
        header_bytes ++ content_bytes ++ (f ++ List.replicate 64 0))

/-! Concrete values used by the witnesses. -/

/-- A digest oracle with the standard digest lengths (16/16/20 bytes). -/
def oracle0 : DigestOracle :=
  ⟨fun _ => List.replicate 16 0, fun _ => List.replicate 16 0,
    fun _ => List.replicate 20 0⟩

/-- A concrete well-formed heartbeat request. -/
def req0 : HeartbeatRequest :=
  ⟨1, 3, 0, [0, 0, 0, 0, 0, 0], ⟨10, 0, 0, 1⟩, .First, 5⟩

/-! ## Theorems -/

/-- Dropping `n + 4` elements from a list with four explicit heads drops
`n` from the tail. -/
theorem drop_add_four (b0 b1 b2 b3 : Nat) (rest : List Nat) (n : Nat) :
    (b0 :: b1 :: b2 :: b3 :: rest).drop (n + 4) = rest.drop n := by
  have h : n + 4 = (((n + 1) + 1) + 1) + 1 := by omega
  rw [h]
  simp

/-- The indexed XOR loop of `calculate_drcom_crc32` computes the XOR fold
of the buffer's 4-byte words. -/
theorem range_foldl_xor_toWords (bytes : List Nat) (h : bytes.length % 4 = 0)
    (init : Nat) :
    (List.range (bytes.length / 4)).foldl
        (fun result c => result ^^^ read_u32_le (bytes.drop (c * 4))) init =
      (toWords bytes).foldl (· ^^^ ·) init := by
  induction bytes using toWords.induct generalizing init with
  | case1 b0 b1 b2 b3 rest ih =>
    have hr : rest.length % 4 = 0 := by
      simp only [List.length_cons] at h; omega
    have hlen : (b0 :: b1 :: b2 :: b3 :: rest).length / 4 = rest.length / 4 + 1 := by
      simp only [List.length_cons]; omega
    rw [hlen, List.range_succ_eq_map, List.foldl_cons, List.foldl_map]
    have hstep : ∀ (a : Nat), ∀ c ∈ List.range (rest.length / 4),
        a ^^^ read_u32_le ((b0 :: b1 :: b2 :: b3 :: rest).drop (Nat.succ c * 4)) =
          a ^^^ read_u32_le (rest.drop (c * 4)) := by
      intro a c _
      rw [Nat.succ_mul, drop_add_four]
    rw [List.foldl_ext _ _ _ hstep, ih hr]
    simp [toWords, read_u32_le]
  | case2 bytes hne =>
    match bytes, hne with
    | [], _ => simp [toWords]
    | [a], _ => simp at h
    | [a, b], _ => simp at h
    | [a, b, c], _ => simp at h
    | a :: b :: c :: d :: rest, hne => exact absurd rfl (hne a b c d rest)

/-- When every retain offset is strictly inside the digest, the retain loop
collects exactly the digest bytes at those offsets, in table order. -/
theorem retainBytes_of_lt (l : List Nat) (pos : List Nat)
    (h : ∀ i ∈ pos, i < l.length) :
    retainBytes l pos = some (pos.map (fun i => l.getD i 0)) := by
  induction pos with
  | nil => rfl
  | cons i rest ih =>
    have hi : i < l.length := h i (by simp)
    have hrest : ∀ j ∈ rest, j < l.length := fun j hj => h j (by simp [hj])
    simp only [retainBytes]
    rw [if_neg (by omega)]
    have hget : l.get? i = some (l.getD i 0) := by
      simp [List.getElem?_eq_getElem hi]
    rw [hget, ih hrest]
    simp

/-- Evaluation of `CRCHasher::hash` when every retain offset is in range:
the retained digest bytes, in table order. -/
theorem hash_eval (o : DigestOracle) (mode : CRCHasherType) (b : List Nat)
    (h : ∀ i ∈ mode.retain_postions, i < (hasherFinish o mode b).length) :
    CRCHasher.hash o mode b =
      some (mode.retain_postions.map (fun i => (hasherFinish o mode b).getD i 0)) := by
  show (match retainBytes (hasherFinish o mode b) mode.retain_postions with
    | none => none
    | some hashed => if hashed.length = 8 then some hashed else none) = _
  rw [retainBytes_of_lt _ _ h]
  have hlen : mode.retain_postions.length = 8 := by cases mode <;> rfl
  simp [hlen]

/-- Evaluation of `hash` at the `NONE` variant: the synthetic digest with
the identity retain table. -/
theorem hash_none_eval (o : DigestOracle) (b : List Nat) :
    CRCHasher.hash o .NONE b = some [199, 47, 49, 1, 126, 0, 0, 0] := rfl

/-- The MD5 retain offsets are inside a 16-byte digest. -/
theorem md5_positions_lt (o : DigestOracle) (b : List Nat)
    (h : (o.md5 b).length = 16) :
    ∀ i ∈ CRCHasherType.MD5.retain_postions, i < (hasherFinish o .MD5 b).length := by
  intro i hi
  simp only [hasherFinish, h]
  revert hi
  have hh : ∀ i ∈ CRCHasherType.MD5.retain_postions, i < 16 := by decide
  exact hh i

/-- The MD4 retain offsets are inside a 16-byte digest. -/
theorem md4_positions_lt (o : DigestOracle) (b : List Nat)
    (h : (o.md4 b).length = 16) :
    ∀ i ∈ CRCHasherType.MD4.retain_postions, i < (hasherFinish o .MD4 b).length := by
  intro i hi
  simp only [hasherFinish, h]
  revert hi
  have hh : ∀ i ∈ CRCHasherType.MD4.retain_postions, i < 16 := by decide
  exact hh i

/-- The `header_bytes` block, evaluated: the packet-length field is the
native-order 16-bit value 96. -/
theorem header_bytes_eq (code : Nat) (r : HeartbeatRequest) :
    HeartbeatRequest.header_bytes code r = [code, r.sequence, 96, 0] := rfl

/-- The content block has the declared 20 bytes. -/
theorem content_bytes_length (r : HeartbeatRequest)
    (hmac : r.mac_address.length = 6) :
    (HeartbeatRequest.content_bytes r).length = 20 := by
  simp [HeartbeatRequest.content_bytes, write_u32_le, Ipv4Addr.octets, hmac]

/-- Footer case analysis of `HeartbeatRequest::as_bytes`: the selector
never fails; the first 8 footer bytes come from `hash(mode, seed_bytes)`;
exactly in `NONE` mode the 32-byte assembled prefix is checksummed
(successfully), wrap-multiplied by 19680126 and stored over the first 8
footer bytes (product, then zero); 64 zero bytes close the footer. -/
theorem as_bytes_cases (o : DigestOracle) (code : Nat) (r : HeartbeatRequest)
    (hmac : r.mac_address.length = 6)
    (hmd5 : (o.md5 (write_u32_le r.challenge_seed)).length = 16)
    (hmd4 : (o.md4 (write_u32_le r.challenge_seed)).length = 16) :
    ∃ mode h8,
      CRCHasherType.from_mode (r.challenge_seed % 3) = .ok mode ∧
        CRCHasher.hash o mode (write_u32_le r.challenge_seed) = some h8 ∧
        h8.length = 8 ∧
        ((mode = .NONE ∧
            ∃ crc,
              calculate_drcom_crc32
                  (HeartbeatRequest.header_bytes code r ++
                    HeartbeatRequest.content_bytes r ++ h8) none = .ok crc ∧
                HeartbeatRequest.as_bytes o code r =
                  some (HeartbeatRequest.header_bytes code r ++
                    HeartbeatRequest.content_bytes r ++
                    ((write_u32_le (crc * 19680126 % 4294967296) ++ write_u32_le 0) ++
                      List.replicate 64 0))) ∨
          (mode ≠ .NONE ∧
            HeartbeatRequest.as_bytes o code r =
              some (HeartbeatRequest.header_bytes code r ++
                HeartbeatRequest.content_bytes r ++ (h8 ++ List.replicate 64 0)))) := by
  have h3 : r.challenge_seed % 3 = 0 ∨ r.challenge_seed % 3 = 1 ∨
      r.challenge_seed % 3 = 2 := by omega
  rcases h3 with h0 | h1 | h2
  · refine ⟨.NONE, [199, 47, 49, 1, 126, 0, 0, 0], by rw [h0]; rfl,
      hash_none_eval o _, rfl, ?_⟩
    left
    refine ⟨rfl, ?_⟩
    have hlen32 : (HeartbeatRequest.header_bytes code r ++
        HeartbeatRequest.content_bytes r ++
          [199, 47, 49, 1, 126, 0, 0, 0]).length = 32 := by
      simp [header_bytes_eq, content_bytes_length r hmac]
    obtain ⟨crc, hcrc⟩ : ∃ crc, calculate_drcom_crc32
        (HeartbeatRequest.header_bytes code r ++
          HeartbeatRequest.content_bytes r ++
            [199, 47, 49, 1, 126, 0, 0, 0]) none = .ok crc := by
      unfold calculate_drcom_crc32
      rw [if_neg (by rw [hlen32]; decide)]
      exact ⟨_, rfl⟩
    refine ⟨crc, hcrc, ?_⟩
    simp only [HeartbeatRequest.as_bytes, h0,
      show CRCHasherType.from_mode 0 = Except.ok CRCHasherType.NONE from rfl,
      hash_none_eval, hcrc]
    simp [overwrite, write_u32_le, Option.map]
  · have hb := md5_positions_lt o (write_u32_le r.challenge_seed) hmd5
    have hh := hash_eval o .MD5 (write_u32_le r.challenge_seed) hb
    refine ⟨.MD5, _, by rw [h1]; rfl, hh,
      by simp [CRCHasherType.retain_postions], ?_⟩
    right
    refine ⟨by simp, ?_⟩
    simp only [HeartbeatRequest.as_bytes, h1,
      show CRCHasherType.from_mode 1 = Except.ok CRCHasherType.MD5 from rfl, hh]
    simp [Option.map]
  · have hb := md4_positions_lt o (write_u32_le r.challenge_seed) hmd4
    have hh := hash_eval o .MD4 (write_u32_le r.challenge_seed) hb
    refine ⟨.MD4, _, by rw [h2]; rfl, hh,
      by simp [CRCHasherType.retain_postions], ?_⟩
    right
    refine ⟨by simp, ?_⟩
    simp only [HeartbeatRequest.as_bytes, h2,
      show CRCHasherType.from_mode 2 = Except.ok CRCHasherType.MD4 from rfl, hh]
    simp [Option.map]

/-- Layout view of `HeartbeatRequest::as_bytes`: a successful result that
is header, content, then an 8-byte checksum block and 64 zero bytes. -/
theorem as_bytes_layout (o : DigestOracle) (code : Nat) (r : HeartbeatRequest)
    (hmac : r.mac_address.length = 6)
    (hmd5 : (o.md5 (write_u32_le r.challenge_seed)).length = 16)
    (hmd4 : (o.md4 (write_u32_le r.challenge_seed)).length = 16) :
    ∃ f8, f8.length = 8 ∧
      HeartbeatRequest.as_bytes o code r =
        some (HeartbeatRequest.header_bytes code r ++
          HeartbeatRequest.content_bytes r ++ (f8 ++ List.replicate 64 0)) := by
  obtain ⟨mode, h8, hmode, hhash, hlen8, hcases⟩ := as_bytes_cases o code r hmac hmd5 hmd4
  rcases hcases with ⟨hm, crc, hcrc, heq⟩ | ⟨hm, heq⟩
  · exact ⟨write_u32_le (crc * 19680126 % 4294967296) ++ write_u32_le 0,
      by simp [write_u32_le], heq⟩
  · exact ⟨h8, hlen8, heq⟩

/-- Claim C1: for every well-formed heartbeat request (digests of standard
length), the footer is built by selecting the checksum mode as
`challenge_seed mod 3` through the selector (never an error), taking the 8
bytes of `hash(mode, seed as 4 native-order bytes)` as the first footer
bytes, and exactly when the mode is `NONE` running the fallback checksum
over header, content and those 8 bytes (32 bytes, never an error),
wrap-multiplying by 19680126 and overwriting the first 4 footer bytes with
the product (native order) and the next 4 with zero; for MD5/MD4 the hash
bytes stand as-is; 64 zero bytes complete the footer. -/
theorem heartbeat_footer_construction (o : DigestOracle) (code : Nat)
    (r : HeartbeatRequest) (hwf : r.wf)
    (hmd5 : ∀ b, (o.md5 b).length = 16)
    (hmd4 : ∀ b, (o.md4 b).length = 16) :
    ∃ mode h8,
      CRCHasherType.from_mode (r.challenge_seed % 3) = .ok mode ∧
        CRCHasher.hash o mode (write_u32_le r.challenge_seed) = some h8 ∧
        h8.length = 8 ∧
        ((mode = .NONE ∧
            ∃ crc,
              calculate_drcom_crc32
                  (HeartbeatRequest.header_bytes code r ++
                    HeartbeatRequest.content_bytes r ++ h8) none = .ok crc ∧
                HeartbeatRequest.as_bytes o code r =
                  some (HeartbeatRequest.header_bytes code r ++
                    HeartbeatRequest.content_bytes r ++
                    ((write_u32_le (crc * 19680126 % 4294967296) ++ write_u32_le 0) ++
                      List.replicate 64 0))) ∨
          (mode ≠ .NONE ∧
            HeartbeatRequest.as_bytes o code r =
              some (HeartbeatRequest.header_bytes code r ++
                HeartbeatRequest.content_bytes r ++ (h8 ++ List.replicate 64 0)))) :=
  as_bytes_cases o code r hwf.2.2.2.1 (hmd5 _) (hmd4 _)

/-- Witness for C1 at a concrete oracle and request (seed 5, MD4 mode). -/
theorem heartbeat_footer_construction_witness :
    ∃ mode h8,
      CRCHasherType.from_mode (req0.challenge_seed % 3) = .ok mode ∧
        CRCHasher.hash oracle0 mode (write_u32_le req0.challenge_seed) = some h8 ∧
        h8.length = 8 ∧
        ((mode = .NONE ∧
            ∃ crc,
              calculate_drcom_crc32
                  (HeartbeatRequest.header_bytes 7 req0 ++
                    HeartbeatRequest.content_bytes req0 ++ h8) none = .ok crc ∧
                HeartbeatRequest.as_bytes oracle0 7 req0 =
                  some (HeartbeatRequest.header_bytes 7 req0 ++
                    HeartbeatRequest.content_bytes req0 ++
                    ((write_u32_le (crc * 19680126 % 4294967296) ++ write_u32_le 0) ++
                      List.replicate 64 0))) ∨
          (mode ≠ .NONE ∧
            HeartbeatRequest.as_bytes oracle0 7 req0 =
              some (HeartbeatRequest.header_bytes 7 req0 ++
                HeartbeatRequest.content_bytes req0 ++ (h8 ++ List.replicate 64 0)))) :=
  heartbeat_footer_construction oracle0 7 req0 (by decide)
    (fun _ => rfl) (fun _ => rfl)

/-- Claim C2: for every well-formed heartbeat request (digests of standard
length), `as_bytes` succeeds with exactly 96 bytes: opcode, sequence, the
native-order 16-bit length 96, then type_id, uid_length, the 6 MAC bytes,
the 4 address octets, the native-order flag constant (0x2a006200 for
`First`, 0x2a006300 for `NotFirst`) and the native-order seed, followed by
a 72-byte footer. -/
theorem heartbeat_layout (o : DigestOracle) (code : Nat)
    (r : HeartbeatRequest) (hwf : r.wf)
    (hmd5 : ∀ b, (o.md5 b).length = 16)
    (hmd4 : ∀ b, (o.md4 b).length = 16) :
    ∃ bytes footer,
      HeartbeatRequest.as_bytes o code r = some bytes ∧
        bytes = [code, r.sequence] ++ write_u16_le 96 ++
          [r.type_id, r.uid_length] ++ r.mac_address ++ r.source_ip.octets ++
          write_u32_le r.flag.as_u32 ++ write_u32_le r.challenge_seed ++ footer ∧
        footer.length = 72 ∧ bytes.length = 96 ∧
        HeartbeatFlag.First.as_u32 = 0x2a006200 ∧
        HeartbeatFlag.NotFirst.as_u32 = 0x2a006300 := by
  obtain ⟨f8, hf8, heq⟩ := as_bytes_layout o code r hwf.2.2.2.1 (hmd5 _) (hmd4 _)
  refine ⟨_, f8 ++ List.replicate 64 0, heq, ?_, ?_, ?_, rfl, rfl⟩
  · simp [header_bytes_eq, HeartbeatRequest.content_bytes, write_u16_le]
  · simp [hf8]
  · simp [header_bytes_eq, content_bytes_length r hwf.2.2.2.1, hf8,
      List.length_append]

/-- Witness for C2 at a concrete oracle and request. -/
theorem heartbeat_layout_witness :
    ∃ bytes footer,
      HeartbeatRequest.as_bytes oracle0 7 req0 = some bytes ∧
        bytes = [7, req0.sequence] ++ write_u16_le 96 ++
          [req0.type_id, req0.uid_length] ++ req0.mac_address ++
          req0.source_ip.octets ++ write_u32_le req0.flag.as_u32 ++
          write_u32_le req0.challenge_seed ++ footer ∧
        footer.length = 72 ∧ bytes.length = 96 ∧
        HeartbeatFlag.First.as_u32 = 0x2a006200 ∧
        HeartbeatFlag.NotFirst.as_u32 = 0x2a006300 :=
  heartbeat_layout oracle0 7 req0 (by decide) (fun _ => rfl) (fun _ => rfl)

/-- Claim C9: every encoded packet's declared length field equals the bytes
actually emitted: the challenge request's bytes 2..4 decode (native order)
to its 8 emitted bytes, and the heartbeat request's bytes 2..4 decode to
its 96 emitted bytes.  (The challenge response is only decoded, never
encoded, by this core.) -/
theorem declared_length_invariant :
    (∀ code seq, (ChallengeRequest.as_bytes code ⟨seq⟩).length = 8 ∧
        read_u16_le ((ChallengeRequest.as_bytes code ⟨seq⟩).drop 2) = 8) ∧
      ∀ (o : DigestOracle) (code : Nat) (r : HeartbeatRequest), r.wf →
        (∀ b, (o.md5 b).length = 16) → (∀ b, (o.md4 b).length = 16) →
        ∃ bytes, HeartbeatRequest.as_bytes o code r = some bytes ∧
          bytes.length = 96 ∧ read_u16_le (bytes.drop 2) = 96 := by
  constructor
  · intro code seq
    exact ⟨rfl, rfl⟩
  · intro o code r hwf hmd5 hmd4
    obtain ⟨f8, hf8, heq⟩ := as_bytes_layout o code r hwf.2.2.2.1 (hmd5 _) (hmd4 _)
    refine ⟨_, heq, ?_, ?_⟩
    · simp [header_bytes_eq, content_bytes_length r hwf.2.2.2.1, hf8,
        List.length_append]
    · rw [header_bytes_eq]
      simp [read_u16_le]

/-- Witness for C9 at a concrete oracle and request. -/
theorem declared_length_invariant_witness :
    ∃ bytes, HeartbeatRequest.as_bytes oracle0 7 req0 = some bytes ∧
      bytes.length = 96 ∧ read_u16_le (bytes.drop 2) = 96 :=
  declared_length_invariant.2 oracle0 7 req0 (by decide)
    (fun _ => rfl) (fun _ => rfl)

/-- Claim C3: `hash(None, buf)` is constant and input-independent: for
every digest oracle and every input buffer (the empty one included) it is
the 8 bytes given by the native-order encoding of 20000711 followed by
that of 126, i.e. `[199, 47, 49, 1, 126, 0, 0, 0]` little-endian. -/
theorem hash_none_constant (o : DigestOracle) (buf : List Nat) :
    CRCHasher.hash o .NONE buf = some [199, 47, 49, 1, 126, 0, 0, 0] ∧
      NoneHasher.finish = write_u32_le 20000711 ++ write_u32_le 126 := by
  exact ⟨rfl, rfl⟩

/-- Claim C6: the mode selector maps 0, 1, 2, 3 to `NONE`, `MD5`, `MD4`,
`SHA1` without failing, and fails with `ModeNotExist` on every other
input. -/
theorem from_mode_spec :
    CRCHasherType.from_mode 0 = .ok .NONE ∧
      CRCHasherType.from_mode 1 = .ok .MD5 ∧
      CRCHasherType.from_mode 2 = .ok .MD4 ∧
      CRCHasherType.from_mode 3 = .ok .SHA1 ∧
      ∀ m : Nat, 4 ≤ m → CRCHasherType.from_mode m = .error .ModeNotExist := by
  refine ⟨rfl, rfl, rfl, rfl, ?_⟩
  intro m hm
  match m, hm with
  | n + 4, _ => rfl

/-- Witness for C6 at concrete inputs 4 and 255. -/
theorem from_mode_spec_witness :
    CRCHasherType.from_mode 4 = .error .ModeNotExist ∧
      CRCHasherType.from_mode 255 = .error .ModeNotExist :=
  ⟨from_mode_spec.2.2.2.2 4 (by decide), from_mode_spec.2.2.2.2 255 (by decide)⟩

/-- Claim C8: for every opcode and sequence, `ChallengeRequest::as_bytes`
is exactly 8 bytes: the opcode, the sequence, then the native-order 32-bit
encoding of 65544 (and two remaining zero bytes); there is no error path. -/
theorem challenge_request_encoding (code seq : Nat) :
    ChallengeRequest.as_bytes code ⟨seq⟩ = [code, seq, 8, 0, 1, 0, 0, 0] ∧
      (ChallengeRequest.as_bytes code ⟨seq⟩).length = 8 ∧
      (ChallengeRequest.as_bytes code ⟨seq⟩).getD 0 0 = code ∧
      (ChallengeRequest.as_bytes code ⟨seq⟩).getD 1 0 = seq ∧
      read_u32_le ((ChallengeRequest.as_bytes code ⟨seq⟩).drop 2) = 65544 := by
  refine ⟨rfl, rfl, rfl, rfl, ?_⟩
  simp [ChallengeRequest.as_bytes, ChallengeRequest.magic_number,
    write_u32_le, read_u32_le]

/-- Claim C10: `ChallengeRequest::new(None)` has sequence 1, so byte 1 of
its encoding is 1. -/
theorem challenge_request_default_sequence (code : Nat) :
    (ChallengeRequest.new none).sequence = 1 ∧
      (ChallengeRequest.as_bytes code (ChallengeRequest.new none)).getD 1 0 = 1 :=
  ⟨rfl, rfl⟩

/-- Claim C5: the fallback checksum fails with `InputLengthInvalid` exactly
when the buffer length is not a multiple of 4; otherwise it is the XOR of
the buffer's native-order 4-byte words starting from the accumulator
`initial` (0 when absent); the 16 ASCII bytes of "1234567899999999" with no
initial value give 201589764. -/
theorem crc32_spec (bytes : List Nat) (initial : Option Nat) :
    (calculate_drcom_crc32 bytes initial = .error .InputLengthInvalid ↔
        bytes.length % 4 ≠ 0) ∧
      (bytes.length % 4 = 0 →
        calculate_drcom_crc32 bytes initial =
          .ok ((toWords bytes).foldl (· ^^^ ·) (initial.getD 0))) ∧
      calculate_drcom_crc32
          [49, 50, 51, 52, 53, 54, 55, 56, 57, 57, 57, 57, 57, 57, 57, 57]
          none = .ok 201589764 := by
  refine ⟨?_, ?_, rfl⟩
  · constructor
    · intro he
      by_contra hlen
      simp [calculate_drcom_crc32, hlen] at he
    · intro hlen
      simp [calculate_drcom_crc32, hlen]
  · intro hlen
    simp only [calculate_drcom_crc32, hlen]
    simp [range_foldl_xor_toWords bytes hlen]

/-- Witness for C5 at concrete 4-byte and 3-byte buffers. -/
theorem crc32_spec_witness :
    calculate_drcom_crc32 [1, 2, 3, 4] none =
        .ok ((toWords [1, 2, 3, 4]).foldl (· ^^^ ·) ((none : Option Nat).getD 0)) ∧
      calculate_drcom_crc32 [1, 2, 3] none = .error .InputLengthInvalid :=
  ⟨(crc32_spec [1, 2, 3, 4] none).2.1 (by decide),
    ((crc32_spec [1, 2, 3] none).1).mpr (by decide)⟩

/-- Reading back a 4-byte native-order encoding of a `u32` recovers it. -/
theorem read_u32_le_write_u32_le (v : Nat) (h : v < 4294967296) :
    read_u32_le (write_u32_le v) = v := by
  simp [read_u32_le, write_u32_le]
  omega

/-- Claim C7: decoding a stream made of one valid opcode byte, 7 reserved
bytes, the seed in native order and the address in network (big-endian)
order succeeds and recovers exactly that seed and that address. -/
theorem challenge_response_roundtrip (code seed a b c d : Nat)
    (reserved : List Nat) (hres : reserved.length = 7)
    (hseed : seed < 4294967296)
    (ha : a < 256) (hb : b < 256) (hc : c < 256) (hd : d < 256) :
    ChallengeResponse.from_bytes code
        (code :: (reserved ++ (write_u32_le seed ++ [a, b, c, d]))) =
      .ok ⟨seed, ⟨a, b, c, d⟩⟩ := by
  have h1 : validate_packet code
      (code :: (reserved ++ (write_u32_le seed ++ [a, b, c, d]))) =
        .ok (reserved ++ (write_u32_le seed ++ [a, b, c, d])) := by
    simp [validate_packet]
  have h2 : read_bytes 7 (reserved ++ (write_u32_le seed ++ [a, b, c, d])) =
      .ok (reserved, write_u32_le seed ++ [a, b, c, d]) := by
    unfold read_bytes
    rw [if_neg, List.take_left' hres, List.drop_left' hres]
    simp [hres, write_u32_le]
  have h3 : read_bytes 4 (write_u32_le seed ++ [a, b, c, d]) =
      .ok (write_u32_le seed, [a, b, c, d]) := by
    unfold read_bytes
    rw [if_neg, List.take_left' (show (write_u32_le seed).length = 4 from rfl),
      List.drop_left' (show (write_u32_le seed).length = 4 from rfl)]
    simp [write_u32_le]
  have h4 : read_bytes 4 [a, b, c, d] = .ok ([a, b, c, d], []) := by
    simp [read_bytes]
  have hip : Ipv4Addr.fromU32 (read_u32_be [a, b, c, d]) = ⟨a, b, c, d⟩ := by
    simp only [read_u32_be, Ipv4Addr.fromU32, List.getD_cons_zero,
      List.getD_cons_succ, Ipv4Addr.mk.injEq]
    refine ⟨?_, ?_, ?_, ?_⟩ <;> omega
  simp [ChallengeResponse.from_bytes, h1, h2, h3, h4,
    read_u32_le_write_u32_le seed hseed, hip, Except.bind]

/-- Witness for C7 at a concrete stream. -/
theorem challenge_response_roundtrip_witness :
    ChallengeResponse.from_bytes 2
        (2 :: ([9, 9, 9, 9, 9, 9, 9] ++ (write_u32_le 305419896 ++ [10, 0, 0, 1]))) =
      .ok ⟨305419896, ⟨10, 0, 0, 1⟩⟩ :=
  challenge_response_roundtrip 2 305419896 10 0 0 1 [9, 9, 9, 9, 9, 9, 9]
    (by decide) (by decide) (by decide) (by decide) (by decide) (by decide)

/-- Claim C4: for every mode and every input buffer, provided the external
digests have their standard lengths (MD5/MD4: 16 bytes, SHA1: 20 bytes),
`hash` returns exactly 8 bytes without faulting: every built-in retain
offset is within range for its digest, so neither the skip path nor the
length-mismatch failure triggers. -/
theorem hash_total (o : DigestOracle)
    (hmd5 : ∀ b, (o.md5 b).length = 16)
    (hmd4 : ∀ b, (o.md4 b).length = 16)
    (hsha1 : ∀ b, (o.sha1 b).length = 20)
    (mode : CRCHasherType) (buf : List Nat) :
    (∀ i ∈ mode.retain_postions, i < (hasherFinish o mode buf).length) ∧
      ∃ out, CRCHasher.hash o mode buf = some out ∧ out.length = 8 := by
  have hlt : ∀ i ∈ mode.retain_postions, i < (hasherFinish o mode buf).length := by
    cases mode with
    | NONE =>
      intro i hi
      simp only [hasherFinish]
      revert hi
      have : ∀ i ∈ CRCHasherType.NONE.retain_postions, i < NoneHasher.finish.length := by
        decide
      exact this i
    | MD5 =>
      intro i hi
      simp only [hasherFinish, hmd5]
      revert hi
      have : ∀ i ∈ CRCHasherType.MD5.retain_postions, i < 16 := by decide
      exact this i
    | MD4 =>
      intro i hi
      simp only [hasherFinish, hmd4]
      revert hi
      have : ∀ i ∈ CRCHasherType.MD4.retain_postions, i < 16 := by decide
      exact this i
    | SHA1 =>
      intro i hi
      simp only [hasherFinish, hsha1]
      revert hi
      have : ∀ i ∈ CRCHasherType.SHA1.retain_postions, i < 20 := by decide
      exact this i
  refine ⟨hlt, ?_⟩
  refine ⟨(mode.retain_postions).map (fun i => (hasherFinish o mode buf).getD i 0), ?_, ?_⟩
  · show (match retainBytes (hasherFinish o mode buf) mode.retain_postions with
      | none => none
      | some hashed => if hashed.length = 8 then some hashed else none) = _
    rw [retainBytes_of_lt _ _ hlt]
    have hlen : mode.retain_postions.length = 8 := by cases mode <;> rfl
    simp [hlen]
  · have hlen : mode.retain_postions.length = 8 := by cases mode <;> rfl
    simp [hlen]

/-- Witness for C4 at a concrete oracle, mode and buffer. -/
theorem hash_total_witness :
    (∀ i ∈ CRCHasherType.MD5.retain_postions,
        i < (hasherFinish oracle0 .MD5 [0]).length) ∧
      ∃ out, CRCHasher.hash oracle0 .MD5 [0] = some out ∧ out.length = 8 :=
  hash_total oracle0 (fun _ => rfl) (fun _ => rfl) (fun _ => rfl) .MD5 [0]
